import Mathlib

/-!
Verification of the emperror error-reporting dispatch layer.

The repository provides an error-handler abstraction (`Handler` with a single
`Handle(err)` operation), context annotation of error chains, stack-trace
exposure, panic recovery, conditional dispatch, and an Airbrake destination
adapter (`src/handler/airbrakehandler/handler.go`).

Go `error` values may be nil; we model a possibly-nil error as
`Option GoErr`.  A panicking scope is modelled by its outcome: `none` for a
normal return, `some v` for a panic carrying value `v`.
-/

set_option autoImplicit false

namespace emperror

/-- Modelled from the spec: the error-chain data model (§3).  The core error
types of the emperror package are not part of the available sources (only
their tests and the Airbrake adapter are), so the chain is modelled from the
spec: each link either originates a failure (`root`) or wraps a predecessor,
adding an annotation set, a stack snapshot, or an HTTP request descriptor. -/
inductive GoErr where
  | root (msg : String)
  | withContext (pred : GoErr) (kvs : List (String × String))
  | withStack (pred : GoErr) (trace : List String)
  | withHTTPRequest (pred : GoErr) (method url : String)
deriving DecidableEq

/-- Modelled from the spec: the error's message (`Error()` in Go); wrapping
layers delegate to the wrapped error's message. -/
def GoErr.message : GoErr → String
  | .root m => m
  | .withContext p _ => p.message
  | .withStack p _ => p.message
  | .withHTTPRequest p _ _ => p.message

/-- Modelled from the spec: the annotation sets contributed by the wrap
points of a chain, listed outermost (most recently wrapped) first (§3). -/
def GoErr.contextSets : GoErr → List (List (String × String))
  | .root _ => []
  | .withContext p kvs => kvs :: p.contextSets
  | .withStack p _ => p.contextSets
  | .withHTTPRequest p _ _ => p.contextSets

/-- Keep the first pair carrying each key not yet seen, in order; `seen` is
the set of keys already emitted. -/
def dedupFirstAux : List String → List (String × String) → List (String × String)
  | _, [] => []
  | seen, kv :: rest =>
    if seen.contains kv.1 then dedupFirstAux seen rest
    else kv :: dedupFirstAux (kv.1 :: seen) rest

/-- Keep the first occurrence of every key, in first-seen order.  This is the
merge of §3: scanning outermost-to-innermost, the outermost (first seen)
occurrence of a key wins and ordering is first-seen key order. -/
def dedupFirst : List (String × String) → List (String × String) :=
  dedupFirstAux []

/-- Modelled from the spec: `WithContext(err, pairs...)` attaches an
annotation set to `err`, returning a new wrapping error; nil in, nil out
(§4.1).  The function itself is missing from the sources. -/
def WithContext (err : Option GoErr) (kvs : List (String × String)) : Option GoErr :=
  match err with
  | none => none
  | some e => some (.withContext e kvs)

/-- Modelled from the spec: `Context`/`ExtractContext` walks the full chain
outward-to-inward and merges all annotation sets per the override rule of §3
(outermost occurrence of a key wins, first-seen key order); extraction of nil
or of an unannotated error is the empty sequence (§4.1).  The function itself
is missing from the sources. -/
def Context (err : Option GoErr) : List (String × String) :=
  match err with
  | none => []
  | some e => dedupFirst e.contextSets.flatten

/-- The stack snapshot exposed by the outermost layer only, if any. -/
def GoErr.outerStack : GoErr → Option (List String)
  | .withStack _ t => some t
  | _ => none

/-- Modelled from the spec: the first stack snapshot found scanning
outward-to-inward (§3). -/
def GoErr.findStack : GoErr → Option (List String)
  | .root _ => none
  | .withStack _ t => some t
  | .withContext p _ => p.findStack
  | .withHTTPRequest p _ _ => p.findStack

/-- Modelled from the spec: `HasStackTrace(err)` (§4.2). -/
def HasStackTrace (err : Option GoErr) : Bool :=
  match err with
  | none => false
  | some e => e.findStack.isSome

/-- Modelled from the spec: `ExposeStackTrace(err)` guarantees the returned
error's outermost layer exposes a stack trace whenever any layer in the chain
does, and is the identity otherwise (§4.2).  The function itself is missing
from the sources. -/
def ExposeStackTrace (err : Option GoErr) : Option GoErr :=
  match err with
  | none => none
  | some e =>
    match e.outerStack with
    | some _ => some e
    | none =>
      match e.findStack with
      | none => some e
      | some t => some (.withStack e t)

/-- Modelled from the spec: the first HTTP request descriptor reachable in
the chain, scanning outward-to-inward (§6, HTTP request extraction). -/
def GoErr.findRequest : GoErr → Option (String × String)
  | .root _ => none
  | .withStack p _ => p.findRequest
  | .withContext p _ => p.findRequest
  | .withHTTPRequest _ m u => some (m, u)

/-- Modelled from the spec: `httperr.HTTPRequest(err)` returns the associated
originating HTTP request if one was attached during wrapping (§6). -/
def HTTPRequest (err : Option GoErr) : Option (String × String) :=
  match err with
  | none => none
  | some e => e.findRequest

/-- A value carried by a panic: either an error value, or a non-error value
represented by its textual representation. -/
inductive PanicVal where
  | err (e : GoErr)
  | nonErr (text : String)
deriving DecidableEq

/-- Modelled from the spec: normalization of a recovered panic value into an
error — an error panic value is used as-is, any other value is wrapped as a
new error whose message is its textual representation (§4.4). -/
def recoveredError : PanicVal → GoErr
  | .err e => e
  | .nonErr s => .root s

/-- Modelled from the spec: `HandleRecover(handler)`, executed while the
enclosing scope exits.  The scope's outcome is `none` (normal return) or
`some v` (panicking with `v`).  On a panic the recovered value is normalized
to an error, reported to the handler, and the panic continues propagating;
on a normal exit nothing happens (§4.4).  The result pairs the handler's
post-state with the outcome that continues past the recovery boundary.  The
handler is any implementation of the `Handle` capability, modelled as a state
type `H` with a state transformer. -/
def HandleRecover {H : Type} (handle : H → GoErr → H) (h : H)
    (outcome : Option PanicVal) : H × Option PanicVal :=
  match outcome with
  | none => (h, none)
  | some v => (handle h (recoveredError v), some v)

/-- Modelled from the spec: `Panic(err)` panics with a non-nil error as
payload and is a no-op on nil (§4.4).  The result is the outcome of the
calling scope: `none` when no panic is raised. -/
def Panic : Option GoErr → Option PanicVal
  | none => none
  | some e => some (.err e)

/-- Modelled from the spec: `HandleIfErr(handler, err)` — nil is a no-op,
otherwise `handler.Handle(err)` is called synchronously (§4.5). -/
def HandleIfErr {H : Type} (handle : H → GoErr → H) (h : H)
    (err : Option GoErr) : H :=
  match err with
  | none => h
  | some e => handle h e

/-- Modelled from the spec: the Test Handler owns a single mutable slot
holding the last error passed to it, or none initially (§2, §3). -/
structure TestHandler where
  last : Option GoErr
deriving DecidableEq

/-- A freshly constructed Test Handler: the slot is empty. -/
def TestHandler.new : TestHandler := ⟨none⟩

/-- Modelled from the spec: the Test Handler's `Handle` overwrites the slot
on every call (§3). -/
def TestHandler.Handle (_h : TestHandler) (e : GoErr) : TestHandler := ⟨some e⟩

/-- Modelled from the spec: the slot is read via the accessor `Last()`. -/
def TestHandler.Last (h : TestHandler) : Option GoErr := h.last

/-- A handler instantiation recording the sequence of `Handle` calls it
receives, used to count invocations. -/
def traceHandle (calls : List GoErr) (e : GoErr) : List GoErr := calls ++ [e]

/-- Modelled from the spec: `keyvals.ToMap` (the `internal/keyvals` package is
missing from the sources) converts an extracted annotation sequence into a
simple mapping keyed by text, duplicate keys resolved per the override rule
of §3 — the first-seen (outermost) occurrence wins (§6). -/
def ToMap (kvs : List (String × String)) : List (String × String) :=
  dedupFirst kvs

end emperror

namespace airbrakehandler

/-- The external `gobrake.Notifier` client, modelled opaquely by its
construction parameters. -/
structure Notifier where
  projectID : Int
  projectKey : String
deriving DecidableEq

/-- An outgoing Airbrake notice: the reported error's message, the optional
originating HTTP request, and the optional `Params` metadata map.  `params`
is `none` while unset. -/
structure Notice where
  errMsg : Option String
  request : Option (String × String)
  params : Option (List (String × String))
deriving DecidableEq

/-- `gobrake.NewNotifier(projectID, projectKey)`, modelled opaquely. -/
def NewNotifier (projectID : Int) (projectKey : String) : Notifier :=
  ⟨projectID, projectKey⟩

/-- `notifier.Notice(err, req, depth)`: builds a notice from the error and
request; `Params` starts unset. -/
def Notifier.Notice (_n : Notifier) (err : Option emperror.GoErr)
    (req : Option (String × String)) (_depth : Nat) : Notice :=
  ⟨err.map emperror.GoErr.message, req, none⟩

/-- The result of the external synchronous `SendNotice`: a notice id on
success, or a delivery error. -/
inductive SendResult where
  | delivered (noticeID : String)
  | failed (errMsg : String)

/-- `Handler` from `src/handler/airbrakehandler/handler.go`: holds the
notifier and the `sendAsynchronously` flag (Go zero value: `false`). -/
structure Handler where
  notifier : Notifier
  sendAsynchronously : Bool
deriving DecidableEq

/-- `SendSynchronously` option from `handler.go`: `apply` assigns the option's
boolean value to the handler's `sendAsynchronously` field
(`l.sendAsynchronously = bool(o)`). -/
def SendSynchronously.apply (o : Bool) (l : Handler) : Handler :=
  { l with sendAsynchronously := o }

/-- The `Option` interface of `handler.go` (named `HandlerOption` here to
avoid clashing with Lean's `Option`): an arbitrary transformation applied to
the handler under construction. -/
def HandlerOption := Handler → Handler

/-- `NewFromNotifier` from `handler.go`: builds the handler around the
notifier and applies each option in order. -/
def NewFromNotifier (notifier : Notifier) (opts : List HandlerOption) : Handler :=
  opts.foldl (fun h o => o h) { notifier := notifier, sendAsynchronously := false }

/-- `New` from `handler.go`: builds a notifier and delegates to
`NewFromNotifier`. -/
def New (projectID : Int) (projectKey : String) (opts : List HandlerOption) : Handler :=
  NewFromNotifier (NewNotifier projectID projectKey) opts

/-- `NewAsync` from `handler.go`: like `New`, then sets
`sendAsynchronously = true` after all options were applied. -/
def NewAsync (projectID : Int) (projectKey : String) (opts : List HandlerOption) : Handler :=
  { New projectID projectKey opts with sendAsynchronously := true }

/-- `NewAsyncFromNotifier` from `handler.go`: like `NewFromNotifier`, then
sets `sendAsynchronously = true` after all options were applied. -/
def NewAsyncFromNotifier (notifier : Notifier) (opts : List HandlerOption) : Handler :=
  { NewFromNotifier notifier opts with sendAsynchronously := true }

/-- The dispatch performed by `Handler.Handle`: the built notice is handed to
the asynchronous send path or to the synchronous one (whose `SendNotice`
result is discarded, so it does not appear here). -/
inductive Dispatch where
  | async (n : Notice)
  | sync (n : Notice)
deriving DecidableEq

/-- The notice a dispatch carries. -/
def Dispatch.notice : Dispatch → Notice
  | .async n => n
  | .sync n => n

/-- Whether the dispatch took the asynchronous send path. -/
def Dispatch.isAsync : Dispatch → Bool
  | .async _ => true
  | .sync _ => false

/-- `Handler.Handle` from `handler.go`: extracts the HTTP request, exposes
the stack trace on the outer error, builds the notice, attaches the extracted
context as `Params` when non-empty (`if kvs := emperror.Context(err);
len(kvs) > 0`), and sends asynchronously or synchronously depending on the
flag, discarding the synchronous send's results (`_, _ =`).  The external
`SendNotice` is passed in as `send`. -/
def Handler.Handle (send : Notifier → Notice → SendResult) (h : Handler)
    (err : Option emperror.GoErr) : Dispatch :=
  let req := emperror.HTTPRequest err
  let err2 := emperror.ExposeStackTrace err
  let notice := h.notifier.Notice err2 req 1
  let kvs := emperror.Context err2
  let notice2 :=
    if kvs.length > 0 then { notice with params := some (emperror.ToMap kvs) }
    else notice
  if h.sendAsynchronously then
    Dispatch.async notice2
  else
    let _ := send h.notifier notice2
    Dispatch.sync notice2

end airbrakehandler

namespace emperror

/-- Claim C1: for every handler and every panic intercepted by a deferred
`HandleRecover`, the outcome that continues past the recovery boundary is the
original one unchanged — in particular a panic (`some v`) is never turned
into a normal return (`none`). -/
theorem handleRecover_repropagates {H : Type} (handle : H → GoErr → H)
    (h : H) (outcome : Option PanicVal) :
    (HandleRecover handle h outcome).2 = outcome := by
  cases outcome <;> rfl

/-- Claim C2: a fresh `TestHandler` guarded by `HandleRecover` over a scope
that panics with `errors.New("error")` ends up with `Last()` returning an
error whose message is `"error"`. -/
theorem testHandleRecovery :
    ((HandleRecover TestHandler.Handle TestHandler.new
        (some (.err (.root "error")))).1.Last).map GoErr.message
      = some "error" := by
  rfl

/-- Claim C3: `HandleIfErr(h, nil)` never invokes `h.Handle` (the handler
state is returned untouched and a call-tracing handler records no call), and
`HandleIfErr(h, e)` for non-nil `e` performs exactly one `Handle` call with
the identical value `e`. -/
theorem handleIfErr_calls :
    (∀ (H : Type) (handle : H → GoErr → H) (h : H),
        HandleIfErr handle h none = h)
    ∧ (HandleIfErr traceHandle [] none = [])
    ∧ (∀ e : GoErr, HandleIfErr traceHandle [] (some e) = [e])
    ∧ (∀ (H : Type) (handle : H → GoErr → H) (h : H) (e : GoErr),
        HandleIfErr handle h (some e) = handle h e) := by
  exact ⟨fun _ _ _ => rfl, rfl, fun _ => rfl, fun _ _ _ _ => rfl⟩

/-- Claim C4: `Panic(nil)` raises no panic, and for non-nil `e`, `Panic(e)`
panics with a payload whose normalization by `HandleRecover` reaches the
handler as an error with `e`'s message. -/
theorem panic_payload :
    Panic none = none
    ∧ ∀ e : GoErr,
        (Panic (some e)).isSome = true
        ∧ ((HandleRecover TestHandler.Handle TestHandler.new
              (Panic (some e))).1.Last).map GoErr.message
            = some e.message := by
  exact ⟨rfl, fun e => ⟨rfl, rfl⟩⟩

/-- Claim C6: a fresh `TestHandler`'s `Last()` is none, and after any
sequence of `Handle` calls ending with `e`, `Last()` returns exactly `e`
(the slot is overwritten on every call). -/
theorem testHandler_last_slot (es : List GoErr) (e : GoErr) :
    TestHandler.new.Last = none
    ∧ ((es ++ [e]).foldl TestHandler.Handle TestHandler.new).Last = some e := by
  refine ⟨rfl, ?_⟩
  simp [List.foldl_append, TestHandler.Handle, TestHandler.Last]

/-- Looking a key up in the deduplicated list: keys already in `seen` are
absent, all others resolve to their first occurrence, as in the raw list. -/
theorem lookup_dedupFirstAux (l : List (String × String)) :
    ∀ (seen : List String) (k : String),
      (dedupFirstAux seen l).lookup k
        = if seen.contains k then none else l.lookup k := by
  induction l with
  | nil =>
    intro seen k
    simp [dedupFirstAux]
  | cons kv rest ih =>
    intro seen k
    obtain ⟨a, b⟩ := kv
    cases ha : seen.contains a with
    | true =>
      have hstep : dedupFirstAux seen ((a, b) :: rest) = dedupFirstAux seen rest := by
        simp only [dedupFirstAux]
        exact if_pos ha
      rw [hstep, ih seen k]
      cases hk : seen.contains k with
      | true => rfl
      | false =>
        have hka : (k == a) = false := by
          cases hx : (k == a) with
          | false => rfl
          | true =>
            have hkeq : k = a := eq_of_beq hx
            rw [hkeq, ha] at hk
            exact Bool.noConfusion hk
        simp [List.lookup_cons, hka]
    | false =>
      have hstep : dedupFirstAux seen ((a, b) :: rest)
          = (a, b) :: dedupFirstAux (a :: seen) rest := by
        simp only [dedupFirstAux]
        exact if_neg (Bool.eq_false_iff.mp ha)
      rw [hstep]
      cases hk : (k == a) with
      | true =>
        have hkeq : k = a := eq_of_beq hk
        have hkseen : seen.contains k = false := by rw [hkeq]; exact ha
        have hne : ¬ (seen.contains k = true) := Bool.eq_false_iff.mp hkseen
        rw [if_neg hne]
        simp [List.lookup_cons, hk]
      | false =>
        rw [List.lookup_cons, hk, ih (a :: seen) k]
        have hcontains : (a :: seen).contains k = seen.contains k := by
          rw [List.contains_cons, hk, Bool.false_or]
        rw [hcontains]
        cases hks : seen.contains k with
        | true => rfl
        | false => simp [List.lookup_cons, hk]

/-- Looking a key up after first-occurrence deduplication agrees with looking
it up in the raw list. -/
theorem lookup_dedupFirst (l : List (String × String)) (k : String) :
    (dedupFirst l).lookup k = l.lookup k := by
  simpa using lookup_dedupFirstAux l [] k

/-- Lookup distributes over append: the left list wins. -/
theorem lookup_append (l1 l2 : List (String × String)) (k : String) :
    (l1 ++ l2).lookup k = (l1.lookup k).orElse (fun _ => l2.lookup k) := by
  induction l1 with
  | nil => simp [List.lookup]
  | cons kv rest ih =>
    obtain ⟨a, b⟩ := kv
    by_cases hk : (k == a) = true <;>
      simp [List.lookup, hk, ih, Option.orElse]

/-- Claim C5 (counterexample): the claim quantifies over every error `e`,
but when `e` itself already carries annotations, extraction returns more
than the union of `A1` and `A2` — the chain's remaining annotations are
merged in as well. -/
theorem context_override_counterexample :
    ¬ (Context (WithContext (WithContext
          (some (.withContext (.root "x") [("c", "9")])) [("a", "1")])
          [("a", "2"), ("b", "3")])
        = [("a", "2"), ("b", "3")]) := by
  intro h
  have heval : Context (WithContext (WithContext
      (some (.withContext (.root "x") [("c", "9")])) [("a", "1")])
      [("a", "2"), ("b", "3")])
      = [("a", "2"), ("b", "3"), ("c", "9")] := by
    simp [Context, WithContext, GoErr.contextSets, dedupFirst, dedupFirstAux]
  rw [heval] at h
  simp at h

/-- Claim C5 (amended): for every error `e` carrying no annotations of its
own, extracting context from `WithContext(WithContext(e, A1...), A2...)`
returns the union of `A1` and `A2` in first-seen key order with the value
from `A2` (the outermost wrap) winning on key collision: the result is the
first-occurrence deduplication of `A2 ++ A1`, and every key resolves to its
`A2` value when present there, else its `A1` value. -/
theorem context_override (e : GoErr) (A1 A2 : List (String × String))
    (hA : e.contextSets = []) :
    Context (WithContext (WithContext (some e) A1) A2) = dedupFirst (A2 ++ A1)
    ∧ ∀ k : String,
        (Context (WithContext (WithContext (some e) A1) A2)).lookup k
          = (A2.lookup k).orElse (fun _ => A1.lookup k) := by
  have h1 : Context (WithContext (WithContext (some e) A1) A2)
      = dedupFirst (A2 ++ A1) := by
    simp [Context, WithContext, GoErr.contextSets, hA]
  refine ⟨h1, fun k => ?_⟩
  rw [h1, lookup_dedupFirst, lookup_append]

/-- Claim C5 (witness): the amended theorem applied to the spec's own
scenario — a plain root error, wraps `{"a":"1"}` then `{"a":"2","b":"3"}`. -/
theorem context_override_witness :
    (GoErr.root "x").contextSets = []
    ∧ Context (WithContext (WithContext (some (.root "x")) [("a", "1")])
          [("a", "2"), ("b", "3")])
        = dedupFirst ([("a", "2"), ("b", "3")] ++ [("a", "1")]) :=
  ⟨rfl, (context_override (.root "x") [("a", "1")] [("a", "2"), ("b", "3")] rfl).1⟩

/-- Exposing a stack trace does not change the extracted context: the wrapper
layer contributes no annotations and the rest of the chain is unchanged. -/
theorem context_exposeStackTrace (err : Option GoErr) :
    Context (ExposeStackTrace err) = Context err := by
  cases err with
  | none => rfl
  | some e =>
    show Context (match e.outerStack with
      | some _ => some e
      | none => match e.findStack with
        | none => some e
        | some t => some (.withStack e t)) = Context (some e)
    cases h1 : e.outerStack with
    | some t => rfl
    | none =>
      cases h2 : e.findStack with
      | none => rfl
      | some t => simp [Context, GoErr.contextSets]

end emperror

namespace airbrakehandler

/-- Claim C7: the notice dispatched by `Handler.Handle` carries `Params`
exactly when the context extracted from the error chain is non-empty, in
which case `Params` is the flat text-keyed map of that context; otherwise
`Params` is left unset. -/
theorem handle_params_iff_context (send : Notifier → Notice → SendResult)
    (h : Handler) (err : Option emperror.GoErr) :
    (Handler.Handle send h err).notice.params
      = if emperror.Context err = [] then none
        else some (emperror.ToMap (emperror.Context err)) := by
  have hnotice : (Handler.Handle send h err).notice
      = (if (emperror.Context (emperror.ExposeStackTrace err)).length > 0
          then { h.notifier.Notice (emperror.ExposeStackTrace err)
                    (emperror.HTTPRequest err) 1 with
                  params := some (emperror.ToMap
                    (emperror.Context (emperror.ExposeStackTrace err))) }
          else h.notifier.Notice (emperror.ExposeStackTrace err)
                  (emperror.HTTPRequest err) 1) := by
    simp only [Handler.Handle]
    cases hb : h.sendAsynchronously <;> simp [hb, Dispatch.notice]
  rw [hnotice, emperror.context_exposeStackTrace]
  by_cases hc : emperror.Context err = []
  · simp [hc, Notifier.Notice]
  · have hlen : 0 < (emperror.Context err).length := List.length_pos.mpr hc
    rw [if_pos hlen, if_neg hc]

/-- Claim C8: `Handler.Handle` is a total function whose caller-visible
result is the same whatever the outcome of the external synchronous send —
the `SendNotice` result is discarded (`_, _ =` in the source) and `Handle`
returns nothing in either path, so a delivery failure is never surfaced and
the dispatch never depends on it. -/
theorem handle_discards_send_result (h : Handler)
    (err : Option emperror.GoErr) (s1 s2 : Notifier → Notice → SendResult) :
    Handler.Handle s1 h err = Handler.Handle s2 h err := rfl

/-- Claim C9: applying the option `SendSynchronously(b)` sets the handler's
`sendAsynchronously` field to `b`; in particular `SendSynchronously(true)`
yields a handler whose `Handle` dispatches through the asynchronous send
path. -/
theorem sendSynchronously_sets_flag (b : Bool) (h : Handler)
    (send : Notifier → Notice → SendResult) (err : Option emperror.GoErr) :
    (SendSynchronously.apply b h).sendAsynchronously = b
    ∧ (Handler.Handle send (SendSynchronously.apply true h) err).isAsync = true := by
  exact ⟨rfl, rfl⟩

/-- Claim C10: `NewAsync` and `NewAsyncFromNotifier` assign
`sendAsynchronously = true` after every option has been applied, so for any
notifier and any option list the resulting handler sends asynchronously. -/
theorem newAsync_always_asynchronous (projectID : Int) (projectKey : String)
    (notifier : Notifier) (opts : List HandlerOption) :
    (NewAsync projectID projectKey opts).sendAsynchronously = true
    ∧ (NewAsyncFromNotifier notifier opts).sendAsynchronously = true :=
  ⟨rfl, rfl⟩

end airbrakehandler
